import Mathlib

/-!
Verification development for the `save-water` (AquaSpot) repository.

The repository computes a water index (NDWI) over satellite raster bands,
detects changes between two NDWI rasters, ranks leak candidates, and
ingests Sentinel-2 imagery through a STAC catalog.

Numeric model: IEEE floating-point values are modelled by the type `FP`,
a rational number together with the three non-finite values `nan`, `inf`
and `ninf`.  The arithmetic on finite values is exact rational arithmetic
(rounding plays no role in any claim considered here); the propagation of
`nan`/`inf` through `+`, `-`, `/`, comparisons, `np.isfinite` and
`np.clip` follows numpy semantics.  Rasters (`np.ndarray`) are modelled
by a shape together with a flat list of element values; all array
operations used by the code under study are elementwise.
-/

/-- Model of a floating-point value: a finite rational, or one of the
non-finite values NaN, +Inf, -Inf. -/
inductive FP where
  | fin (q : ℚ)
  | nan
  | inf
  | ninf
deriving DecidableEq, Repr

namespace FP

/-- Floating-point addition (numpy semantics for non-finite values). -/
def add : FP → FP → FP
  | .nan, _ => .nan
  | _, .nan => .nan
  | .fin a, .fin b => .fin (a + b)
  | .inf, .ninf => .nan
  | .ninf, .inf => .nan
  | .inf, _ => .inf
  | _, .inf => .inf
  | .ninf, _ => .ninf
  | _, .ninf => .ninf

/-- Floating-point negation. -/
def neg : FP → FP
  | .fin a => .fin (-a)
  | .nan => .nan
  | .inf => .ninf
  | .ninf => .inf

/-- Floating-point subtraction, `a - b = a + (-b)`. -/
def sub (a b : FP) : FP := add a (neg b)

/-- Floating-point division (numpy semantics: `0/0 = nan`, `x/0 = ±inf`,
`inf/inf = nan`, `finite/inf = 0`). -/
def div : FP → FP → FP
  | .nan, _ => .nan
  | _, .nan => .nan
  | .fin a, .fin b =>
      if b = 0 then (if a = 0 then .nan else if 0 < a then .inf else .ninf)
      else .fin (a / b)
  | .inf, .inf => .nan
  | .inf, .ninf => .nan
  | .ninf, .inf => .nan
  | .ninf, .ninf => .nan
  | .inf, .fin b => if b < 0 then .ninf else .inf
  | .ninf, .fin b => if b < 0 then .inf else .ninf
  | .fin _, .inf => .fin 0
  | .fin _, .ninf => .fin 0

/-- `np.isfinite`. -/
def isfinite : FP → Bool
  | .fin _ => true
  | _ => false

/-- The elementwise test `x != 0` (NaN and infinities compare unequal
to zero). -/
def neZero : FP → Bool
  | .fin a => decide (a ≠ 0)
  | _ => true

/-- Strict floating-point comparison `a < b`; any comparison with NaN is
false. -/
def ltB : FP → FP → Bool
  | .nan, _ => false
  | _, .nan => false
  | .fin a, .fin b => decide (a < b)
  | .ninf, .ninf => false
  | .ninf, _ => true
  | _, .ninf => false
  | .inf, _ => false
  | .fin _, .inf => true

/-- `np.clip(x, -1, 1)`: NaN propagates, infinities clamp to the
corresponding bound. -/
def clip1 : FP → FP
  | .nan => .nan
  | .inf => .fin 1
  | .ninf => .fin (-1)
  | .fin a => .fin (max (-1) (min a 1))

end FP

/-- Model of a `np.ndarray`: a shape (list of dimension sizes) together
with the flat list of elements. -/
structure NDArray (α : Type) where
  shape : List Nat
  data : List α
deriving DecidableEq, Repr

/-- `np.where(mask, xs, nan)`: keep a pixel where the mask is true, put
NaN where it is false (`calc_ndwi` lines 56-57). -/
def applyMask (m : List Bool) (xs : List FP) : List FP :=
  List.zipWith (fun b x => if b then x else FP.nan) m xs

/-- The elementwise body of `calc_ndwi` (lines 59-71 of
`aquaspot/ndwi.py`): guarded division by `green + nir`, coercion of
non-finite results to 0, and clamping to `[-1, 1]`.  All four numpy
statements are elementwise, so the whole computation is a single map
over pixel pairs. -/
def ndwiPixel (g n : FP) : FP :=
  let denominator := FP.add g n
  let raw := if denominator.neZero then FP.div (FP.sub g n) denominator else FP.fin 0
  let coerced := if raw.isfinite then raw else FP.fin 0
  coerced.clip1

/-- `calc_ndwi` from `aquaspot/ndwi.py` (lines 21-75): validates that the
two bands share a shape, validates an optional mask's shape, masks
invalid pixels to NaN, and computes the guarded, clamped NDWI.
The `astype(np.float32)` conversion is the identity in this model. -/
def calc_ndwi (green_band nir_band : NDArray FP) (mask : Option (NDArray Bool)) :
    Except String (NDArray FP) :=
  if green_band.shape ≠ nir_band.shape then
    .error "Band shape mismatch"
  else
    match mask with
    | some m =>
        if m.shape ≠ green_band.shape then
          .error "Mask shape mismatch"
        else
          .ok ⟨green_band.shape,
               List.zipWith ndwiPixel (applyMask m.data green_band.data)
                 (applyMask m.data nir_band.data)⟩
    | none =>
        .ok ⟨green_band.shape, List.zipWith ndwiPixel green_band.data nir_band.data⟩

/-- The statistics dictionary returned by `detect_change`
(`aquaspot/ndwi.py` lines 190-198), restricted to the three pixel
counts; the remaining entries (max/min/mean/std of the difference) are
floating-point diagnostics that no claim refers to and are not
modelled. -/
structure ChangeStats where
  total_changed_pixels : Nat
  new_water_pixels : Nat
  lost_water_pixels : Nat
deriving DecidableEq, Repr

/-- `detect_change` from `aquaspot/ndwi.py` (lines 153-203): checks the
two rasters share a shape, thresholds the difference `current - baseline`
into positive changes (new water) and negative changes (lost water), and
returns the combined change mask with pixel-count statistics.  The
`min_change_area` argument is accepted by the source and never used by
it; the model mirrors that. -/
def detect_change (baseline_ndwi current_ndwi : NDArray FP) (change_threshold : FP)
    (min_change_area : Nat) : Except String (NDArray Bool × ChangeStats) :=
  if baseline_ndwi.shape ≠ current_ndwi.shape then
    .error "Array shape mismatch"
  else
    let ndwi_diff := List.zipWith FP.sub current_ndwi.data baseline_ndwi.data
    let positive_change := ndwi_diff.map (fun d => FP.ltB change_threshold d)
    let negative_change := ndwi_diff.map (fun d => FP.ltB d change_threshold.neg)
    let change_mask := List.zipWith or positive_change negative_change
    let _ := min_change_area
    .ok (⟨baseline_ndwi.shape, change_mask⟩,
         { total_changed_pixels := change_mask.countP (fun b => b)
           new_water_pixels := positive_change.countP (fun b => b)
           lost_water_pixels := negative_change.countP (fun b => b) })

example : ndwiPixel (.fin 3) (.fin 1) = .fin (1/2) := by
  norm_num [ndwiPixel, FP.add, FP.sub, FP.neg, FP.div, FP.neZero, FP.isfinite, FP.clip1]
example : ndwiPixel (.fin 1) (.fin (-1)) = .fin 0 := by
  norm_num [ndwiPixel, FP.add, FP.sub, FP.neg, FP.div, FP.neZero, FP.isfinite, FP.clip1]

/-- Every result pixel of the NDWI computation is a finite value in
`[-1, 1]`; this is the pointwise content of the guarded division,
NaN-coercion and clamping in `calc_ndwi`. -/
theorem ndwiPixel_bounded (g n : FP) :
    ∃ q : ℚ, ndwiPixel g n = .fin q ∧ -1 ≤ q ∧ q ≤ 1 := by
  cases g <;> cases n
  case fin.fin a b =>
    by_cases hab : a + b = 0
    · refine ⟨0, ?_, by norm_num, by norm_num⟩
      norm_num [ndwiPixel, FP.add, FP.sub, FP.neg, FP.div, FP.neZero, FP.isfinite, FP.clip1, hab]
    · refine ⟨max (-1) (min ((a + -b) / (a + b)) 1), ?_, le_max_left _ _,
        max_le (by norm_num) (min_le_right _ _)⟩
      norm_num [ndwiPixel, FP.add, FP.sub, FP.neg, FP.div, FP.neZero, FP.isfinite, FP.clip1, hab]
  all_goals
    exact ⟨0, by norm_num [ndwiPixel, FP.add, FP.sub, FP.neg, FP.div, FP.neZero, FP.isfinite,
      FP.clip1], by norm_num, by norm_num⟩

/-- A pixel whose denominator `green + nir` is exactly zero yields
exactly 0 (the division-by-zero guard in `calc_ndwi`). -/
theorem ndwiPixel_add_zero (g n : FP) (h : FP.add g n = .fin 0) :
    ndwiPixel g n = .fin 0 := by
  cases g <;> cases n
  case fin.fin a b =>
    have hab : a + b = 0 := by simpa [FP.add] using h
    norm_num [ndwiPixel, FP.add, FP.sub, FP.neg, FP.div, FP.neZero, FP.isfinite, FP.clip1, hab]
  all_goals exact absurd h (by simp [FP.add])

/-- A pixel where green equals nir yields exactly 0, whatever the common
value is (finite, NaN or infinite). -/
theorem ndwiPixel_diag (g : FP) : ndwiPixel g g = .fin 0 := by
  cases g
  case fin a =>
    by_cases ha : a + a = 0
    · norm_num [ndwiPixel, FP.add, FP.sub, FP.neg, FP.div, FP.neZero, FP.isfinite, FP.clip1, ha]
    · norm_num [ndwiPixel, FP.add, FP.sub, FP.neg, FP.div, FP.neZero, FP.isfinite, FP.clip1, ha]
  all_goals
    norm_num [ndwiPixel, FP.add, FP.sub, FP.neg, FP.div, FP.neZero, FP.isfinite, FP.clip1]

/-- A fully masked pixel (both inputs NaN) yields exactly 0. -/
theorem ndwiPixel_nan_nan : ndwiPixel .nan .nan = .fin 0 := by
  norm_num [ndwiPixel, FP.add, FP.sub, FP.neg, FP.div, FP.neZero, FP.isfinite, FP.clip1]

/-- Every element of a `zipWith` is the image of some pair of inputs. -/
theorem mem_zipWith_pair {α β γ : Type} {f : α → β → γ} :
    ∀ {xs : List α} {ys : List β} {v : γ}, v ∈ List.zipWith f xs ys →
      ∃ a b, v = f a b := by
  intro xs
  induction xs with
  | nil => intro ys v hv; simp at hv
  | cons x xs ih =>
    intro ys v hv
    cases ys with
    | nil => simp at hv
    | cons y ys =>
      rcases (by simpa using hv : v = f x y ∨ v ∈ List.zipWith f xs ys) with h | h
      · exact ⟨x, y, h⟩
      · exact ih h

/-- Every element of a diagonal `zipWith` is the image of a repeated
input. -/
theorem mem_zipWith_diag {α γ : Type} {f : α → α → γ} :
    ∀ {xs : List α} {v : γ}, v ∈ List.zipWith f xs xs → ∃ a, v = f a a := by
  intro xs
  induction xs with
  | nil => intro v hv; simp at hv
  | cons x xs ih =>
    intro v hv
    rcases (by simpa using hv : v = f x x ∨ v ∈ List.zipWith f xs xs) with h | h
    · exact ⟨x, h⟩
    · exact ih h

/-- Indexing a `zipWith` at a position present in both inputs. -/
theorem zipWith_getElem_some {α β γ : Type} {f : α → β → γ} :
    ∀ (xs : List α) (ys : List β) (i : Nat) (a : α) (b : β),
      xs[i]? = some a → ys[i]? = some b →
      (List.zipWith f xs ys)[i]? = some (f a b) := by
  intro xs
  induction xs with
  | nil => intro ys i a b ha; simp at ha
  | cons x xs ih =>
    intro ys i a b ha hb
    cases ys with
    | nil => simp at hb
    | cons y ys =>
      cases i with
      | zero =>
        simp at ha hb
        simp [ha, hb]
      | succ j =>
        simp at ha hb
        simpa using ih ys j a b (by simpa using ha) (by simpa using hb)

/-- Indexing `applyMask` at a position present in both inputs. -/
theorem applyMask_getElem_some (m : List Bool) (xs : List FP) (i : Nat) (b : Bool) (x : FP)
    (hb : m[i]? = some b) (hx : xs[i]? = some x) :
    (applyMask m xs)[i]? = some (if b then x else FP.nan) :=
  zipWith_getElem_some m xs i b x hb hx

/-- Claim C1: for every pair of equally shaped green/NIR bands (with or
without a same-shape mask), `calc_ndwi` returns an array of the same
shape whose every value is finite and lies in `[-1, 1]`; pixels whose
denominator `green + nir` is exactly zero yield exactly 0, and if green
equals nir at every pixel the whole result is 0. -/
theorem calc_ndwi_bounded_finite (green nir : NDArray FP) (mask : Option (NDArray Bool))
    (out : NDArray FP)
    (hm : ∀ m, mask = some m → m.data.length = green.data.length)
    (h : calc_ndwi green nir mask = .ok out) :
    out.shape = green.shape ∧
    (∀ v ∈ out.data, v.isfinite = true ∧ ∃ q : ℚ, v = .fin q ∧ -1 ≤ q ∧ q ≤ 1) ∧
    (∀ (i : Nat) (g n : FP), green.data[i]? = some g → nir.data[i]? = some n →
       FP.add g n = .fin 0 → out.data[i]? = some (.fin 0)) ∧
    (green.data = nir.data → ∀ v ∈ out.data, v = .fin 0) := by
  rcases mask with _ | m
  · by_cases hsh : green.shape = nir.shape
    · simp only [calc_ndwi, hsh, ne_eq, not_true_eq_false, if_false, ite_false,
        Except.ok.injEq] at h
      obtain rfl := h.symm
      refine ⟨hsh.symm, ?_, ?_, ?_⟩
      · intro v hv
        obtain ⟨a, b, rfl⟩ := mem_zipWith_pair hv
        obtain ⟨q, hq, h1, h2⟩ := ndwiPixel_bounded a b
        exact ⟨by simp [hq, FP.isfinite], q, hq, h1, h2⟩
      · intro i g n hg hn hadd
        have := zipWith_getElem_some (f := ndwiPixel) green.data nir.data i g n hg hn
        simpa [this] using congrArg some (ndwiPixel_add_zero g n hadd)
      · intro he v hv
        rw [he] at hv
        obtain ⟨a, rfl⟩ := mem_zipWith_diag hv
        exact ndwiPixel_diag a
    · simp [calc_ndwi, hsh] at h
  · by_cases hsh : green.shape = nir.shape
    · by_cases hms : m.shape = green.shape
      · simp only [calc_ndwi, hsh, hms, ne_eq, not_true_eq_false, if_false, ite_false,
          Except.ok.injEq] at h
        obtain rfl := h.symm
        refine ⟨hsh.symm, ?_, ?_, ?_⟩
        · intro v hv
          obtain ⟨a, b, rfl⟩ := mem_zipWith_pair hv
          obtain ⟨q, hq, h1, h2⟩ := ndwiPixel_bounded a b
          exact ⟨by simp [hq, FP.isfinite], q, hq, h1, h2⟩
        · intro i g n hg hn hadd
          obtain ⟨hi, -⟩ := List.getElem?_eq_some.mp hg
          have him : i < m.data.length := by rw [hm m rfl]; exact hi
          rcases hbm : m.data[i]? with _ | bm
          · rw [List.getElem?_eq_none_iff] at hbm; omega
          · have h1 := applyMask_getElem_some m.data green.data i bm g hbm hg
            have h2 := applyMask_getElem_some m.data nir.data i bm n hbm hn
            have h3 := zipWith_getElem_some (f := ndwiPixel)
              (applyMask m.data green.data) (applyMask m.data nir.data) i _ _ h1 h2
            rw [h3]
            cases bm
            · simp [ndwiPixel_nan_nan]
            · simp [ndwiPixel_add_zero g n hadd]
        · intro he v hv
          rw [he] at hv
          obtain ⟨a, rfl⟩ := mem_zipWith_diag hv
          exact ndwiPixel_diag a
      · have hms2 : ¬ m.shape = nir.shape := by rw [← hsh]; exact hms
        simp [calc_ndwi, hsh, hms2] at h
    · simp [calc_ndwi, hsh] at h

/-- Floating-point subtraction is antisymmetric up to negation. -/
theorem FP.sub_antisymm (b c : FP) : FP.sub b c = FP.neg (FP.sub c b) := by
  cases b <;> cases c <;> simp [FP.sub, FP.add, FP.neg] <;> ring

/-- `t < -d` iff `d < -t`, in floating-point comparison semantics. -/
theorem FP.ltB_neg_right (t d : FP) : FP.ltB t (FP.neg d) = FP.ltB d (FP.neg t) := by
  cases t <;> cases d <;> simp only [FP.ltB, FP.neg, decide_eq_decide] <;>
    first
    | rfl
    | constructor <;> intro <;> linarith

/-- `-d < -t` iff `t < d`, in floating-point comparison semantics. -/
theorem FP.ltB_neg_both (t d : FP) : FP.ltB (FP.neg d) (FP.neg t) = FP.ltB t d := by
  cases t <;> cases d <;> simp only [FP.ltB, FP.neg, decide_eq_decide] <;>
    first
    | rfl
    | constructor <;> intro <;> linarith

/-- The pixelwise difference raster negates when the two inputs swap. -/
theorem zipWith_sub_swap :
    ∀ (xs ys : List FP), List.zipWith FP.sub xs ys = (List.zipWith FP.sub ys xs).map FP.neg := by
  intro xs
  induction xs with
  | nil => intro ys; cases ys <;> simp
  | cons x xs ih =>
    intro ys
    cases ys with
    | nil => simp
    | cons y ys => simp [FP.sub_antisymm x y, ih ys]

/-- Pointwise disjunction of boolean rasters commutes. -/
theorem zipWith_or_swap :
    ∀ (xs ys : List Bool), List.zipWith or xs ys = List.zipWith or ys xs := by
  intro xs
  induction xs with
  | nil => intro ys; cases ys <;> simp
  | cons x xs ih =>
    intro ys
    cases ys with
    | nil => simp
    | cons y ys => simp [Bool.or_comm x y, ih ys]

/-- Claim C2: `detect_change` is antisymmetric: for every pair of equally
shaped rasters and every threshold, swapping baseline and current
exchanges the counts of gained (new water) and lost (lost water) pixels
and leaves the total changed-pixel count unchanged. -/
theorem detect_change_antisymm (b c : NDArray FP) (t : FP) (k : Nat)
    (m1 m2 : NDArray Bool) (s1 s2 : ChangeStats)
    (h1 : detect_change b c t k = .ok (m1, s1))
    (h2 : detect_change c b t k = .ok (m2, s2)) :
    s2.new_water_pixels = s1.lost_water_pixels ∧
    s2.lost_water_pixels = s1.new_water_pixels ∧
    s2.total_changed_pixels = s1.total_changed_pixels := by
  by_cases hsh : b.shape = c.shape
  · simp only [detect_change, hsh, ne_eq, not_true_eq_false, if_false, ite_false,
      Except.ok.injEq, Prod.mk.injEq] at h1 h2
    obtain ⟨-, hs1⟩ := h1
    obtain ⟨-, hs2⟩ := h2
    subst hs1 hs2
    have hdiff : List.zipWith FP.sub b.data c.data =
        (List.zipWith FP.sub c.data b.data).map FP.neg := zipWith_sub_swap b.data c.data
    have hpos : (List.zipWith FP.sub b.data c.data).map (fun d => FP.ltB t d) =
        (List.zipWith FP.sub c.data b.data).map (fun d => FP.ltB d t.neg) := by
      rw [hdiff, List.map_map]
      exact List.map_congr_left (fun d _ => FP.ltB_neg_right t d)
    have hneg : (List.zipWith FP.sub b.data c.data).map (fun d => FP.ltB d t.neg) =
        (List.zipWith FP.sub c.data b.data).map (fun d => FP.ltB t d) := by
      rw [hdiff, List.map_map]
      exact List.map_congr_left (fun d _ => FP.ltB_neg_both t d)
    refine ⟨by rw [hpos], by rw [hneg], ?_⟩
    simp only
    rw [hpos, hneg, zipWith_or_swap]
  · simp [detect_change, hsh] at h1

/-- Concrete green band for the `calc_ndwi` witness. -/
def c1Green : NDArray FP := ⟨[2, 2], [.fin 1, .fin 2, .fin 0, .fin 5]⟩

/-- Concrete NIR band for the `calc_ndwi` witness. -/
def c1Nir : NDArray FP := ⟨[2, 2], [.fin 1, .fin 0, .fin 0, .fin 3]⟩

/-- Concrete mask for the `calc_ndwi` witness (third pixel masked out). -/
def c1Mask : NDArray Bool := ⟨[2, 2], [true, true, false, true]⟩

/-- The NDWI raster `calc_ndwi` computes on the witness input. -/
def c1Out : NDArray FP := ⟨[2, 2], [.fin 0, .fin 1, .fin 0, .fin (1/4)]⟩

/-- Witness for claim C1 at a concrete 2×2 input with a mask. -/
theorem calc_ndwi_bounded_finite_witness :
    calc_ndwi c1Green c1Nir (some c1Mask) = .ok c1Out ∧ c1Out.shape = c1Green.shape :=
  have hok : calc_ndwi c1Green c1Nir (some c1Mask) = .ok c1Out := by
    norm_num [calc_ndwi, c1Green, c1Nir, c1Mask, c1Out, applyMask, ndwiPixel,
      FP.add, FP.sub, FP.neg, FP.div, FP.neZero, FP.isfinite, FP.clip1]
  ⟨hok, (calc_ndwi_bounded_finite c1Green c1Nir (some c1Mask) c1Out
      (by intro m hm; cases hm; rfl) hok).1⟩

/-- Concrete baseline raster for the `detect_change` witness. -/
def c2Base : NDArray FP := ⟨[2, 2], [.fin 0, .fin 0, .fin 0, .fin 0]⟩

/-- Concrete current raster for the `detect_change` witness. -/
def c2Curr : NDArray FP := ⟨[2, 2], [.fin 1, .fin 2, .fin 0, .fin 0]⟩

/-- The change mask `detect_change` computes on the witness pair (in both
orders). -/
def c2MaskOut : NDArray Bool := ⟨[2, 2], [false, true, false, false]⟩

/-- Witness for claim C2 at a concrete 2×2 pair with threshold 1. -/
theorem detect_change_antisymm_witness :
    detect_change c2Base c2Curr (.fin 1) 10 = .ok (c2MaskOut, ⟨1, 1, 0⟩) ∧
    detect_change c2Curr c2Base (.fin 1) 10 = .ok (c2MaskOut, ⟨1, 0, 1⟩) ∧
    ((ChangeStats.mk 1 0 1).new_water_pixels = (ChangeStats.mk 1 1 0).lost_water_pixels ∧
     (ChangeStats.mk 1 0 1).lost_water_pixels = (ChangeStats.mk 1 1 0).new_water_pixels ∧
     (ChangeStats.mk 1 0 1).total_changed_pixels = (ChangeStats.mk 1 1 0).total_changed_pixels) :=
  have hok1 : detect_change c2Base c2Curr (.fin 1) 10 = .ok (c2MaskOut, ⟨1, 1, 0⟩) := by
    norm_num [detect_change, c2Base, c2Curr, c2MaskOut, FP.sub, FP.add, FP.neg, FP.ltB,
      List.countP, List.countP.go]
  have hok2 : detect_change c2Curr c2Base (.fin 1) 10 = .ok (c2MaskOut, ⟨1, 0, 1⟩) := by
    norm_num [detect_change, c2Base, c2Curr, c2MaskOut, FP.sub, FP.add, FP.neg, FP.ltB,
      List.countP, List.countP.go]
  ⟨hok1, hok2, detect_change_antisymm c2Base c2Curr (.fin 1) 10 _ _ _ _ hok1 hok2⟩

/-- Claim C3: shape validation.  `calc_ndwi` rejects band pairs of
different shapes and masks whose shape differs from the bands;
`detect_change` rejects raster pairs of different shapes.  In each case
the result is an error, so no output raster is produced. -/
theorem shape_mismatch_errors (g n : NDArray FP) (mo : Option (NDArray Bool))
    (m : NDArray Bool) (b c : NDArray FP) (t : FP) (k : Nat) :
    (g.shape ≠ n.shape → ∃ e, calc_ndwi g n mo = .error e) ∧
    (m.shape ≠ g.shape → ∃ e, calc_ndwi g n (some m) = .error e) ∧
    (b.shape ≠ c.shape → ∃ e, detect_change b c t k = .error e) := by
  refine ⟨?_, ?_, ?_⟩
  · intro h
    exact ⟨"Band shape mismatch", by simp [calc_ndwi, h]⟩
  · intro h
    by_cases hb : g.shape = n.shape
    · have h2 : m.shape ≠ n.shape := by rw [← hb]; exact h
      exact ⟨"Mask shape mismatch", by simp [calc_ndwi, hb, h2]⟩
    · exact ⟨"Band shape mismatch", by simp [calc_ndwi, hb]⟩
  · intro h
    exact ⟨"Array shape mismatch", by simp [detect_change, h]⟩

/-- Concrete arrays for the shape-mismatch witness. -/
def c3G : NDArray FP := ⟨[2], [.fin 0, .fin 0]⟩

/-- A band whose shape differs from `c3G`. -/
def c3N : NDArray FP := ⟨[3], [.fin 0, .fin 0, .fin 0]⟩

/-- A mask whose shape differs from `c3G`. -/
def c3M : NDArray Bool := ⟨[5], [true]⟩

/-- Witness for claim C3 at concrete mismatched shapes. -/
theorem shape_mismatch_errors_witness :
    c3G.shape ≠ c3N.shape ∧ c3M.shape ≠ c3G.shape ∧
    ((∃ e, calc_ndwi c3G c3N none = .error e) ∧
     (∃ e, calc_ndwi c3G c3N (some c3M) = .error e) ∧
     (∃ e, detect_change c3G c3N (.fin 0) 10 = .error e)) :=
  have h1 : c3G.shape ≠ c3N.shape := by decide
  have h2 : c3M.shape ≠ c3G.shape := by decide
  have h := shape_mismatch_errors c3G c3N none c3M c3G c3N (.fin 0) 10
  ⟨h1, h2, h.1 h1, (shape_mismatch_errors c3G c3N (some c3M) c3M c3G c3N (.fin 0) 10).2.1 h2,
    h.2.2 h1⟩

/-- Model of the pydantic `LeakCandidate` (`aquaspot/detection.py` lines
16-25).  The GeoJSON `geometry` payload is an uninterpreted field that
the ranking never reads and is omitted. -/
structure LeakCandidate where
  score : ℚ
  area_m2 : ℚ
  centroid : ℚ × ℚ
  bounding_box : ℚ × ℚ × ℚ × ℚ
deriving DecidableEq, Repr

/-- The comparison `rank_candidates` sorts with: area descending.
Python's `sorted(key=lambda x: x.area_m2, reverse=True)` is a stable
sort by this relation; `List.insertionSort` computes exactly the same
list as any stable sort for a total preorder. -/
def areaDesc (x y : LeakCandidate) : Prop := y.area_m2 ≤ x.area_m2

instance : DecidableRel areaDesc :=
  fun x y => inferInstanceAs (Decidable (y.area_m2 ≤ x.area_m2))

instance : IsTotal LeakCandidate areaDesc :=
  ⟨fun a b => le_total b.area_m2 a.area_m2⟩

instance : IsTrans LeakCandidate areaDesc :=
  ⟨fun _ _ _ hab hbc => le_trans hbc hab⟩

/-- `rank_candidates` from `aquaspot/detection.py` (lines 57-84): keep
candidates with `area_m2 >= min_area`, stably sort by area descending,
return the first `top_k`. -/
def rank_candidates (candidates : List LeakCandidate) (min_area : ℚ) (top_k : Nat) :
    List LeakCandidate :=
  let filtered := candidates.filter (fun c => decide (min_area ≤ c.area_m2))
  let ranked := List.insertionSort areaDesc filtered
  ranked.take top_k

/-- Modelled from the spec: the ordering claim C4 asserts for the output
of `rank_candidates` — area descending with ties broken by confidence
score descending. -/
def SortedByAreaThenScore (l : List LeakCandidate) : Prop :=
  List.Pairwise
    (fun a b => b.area_m2 < a.area_m2 ∨ (b.area_m2 = a.area_m2 ∧ b.score ≤ a.score)) l

/-- An equal-area candidate with the lower confidence score, listed
first. -/
def c4Low : LeakCandidate := ⟨1/10, 30, (0, 0), (0, 0, 1, 1)⟩

/-- An equal-area candidate with the higher confidence score, listed
second. -/
def c4High : LeakCandidate := ⟨9/10, 30, (0, 0), (0, 0, 1, 1)⟩

/-- Counterexample to claim C4 as stated: on two candidates of equal
area, `rank_candidates` keeps the input order (stable sort by area
only), so the lower-confidence candidate stays first and the output is
not sorted with ties broken by confidence descending. -/
theorem rank_candidates_tiebreak_cex :
    rank_candidates [c4Low, c4High] 25 10 = [c4Low, c4High] ∧
    ¬ SortedByAreaThenScore (rank_candidates [c4Low, c4High] 25 10) := by
  have h : rank_candidates [c4Low, c4High] 25 10 = [c4Low, c4High] := by
    norm_num [rank_candidates, List.insertionSort, List.orderedInsert, areaDesc,
      c4Low, c4High, List.filter]
  refine ⟨h, ?_⟩
  rw [h]
  norm_num [SortedByAreaThenScore, c4Low, c4High]

/-- Claim C4, amended: `rank_candidates` returns at most `top_k`
candidates, none with `area_m2` below `min_area`, all drawn from the
kept input candidates, sorted by area descending; candidates of equal
area keep their input order (stable sort) instead of being reordered by
confidence. -/
theorem rank_candidates_spec (candidates : List LeakCandidate) (min_area : ℚ) (top_k : Nat) :
    (∀ cand ∈ rank_candidates candidates min_area top_k, min_area ≤ cand.area_m2) ∧
    (rank_candidates candidates min_area top_k).length ≤ top_k ∧
    (rank_candidates candidates min_area top_k).Pairwise
      (fun a b => b.area_m2 ≤ a.area_m2) ∧
    List.Subperm (rank_candidates candidates min_area top_k)
      (candidates.filter (fun c => decide (min_area ≤ c.area_m2))) ∧
    (∀ a b, (candidates.filter (fun c => decide (min_area ≤ c.area_m2))).length ≤ top_k →
      List.Sublist [a, b] (candidates.filter (fun c => decide (min_area ≤ c.area_m2))) →
      b.area_m2 ≤ a.area_m2 →
      List.Sublist [a, b] (rank_candidates candidates min_area top_k)) := by
  refine ⟨?_, ?_, ?_, ?_, ?_⟩
  · intro cand hc
    have h1 : cand ∈ List.insertionSort areaDesc
        (candidates.filter (fun c => decide (min_area ≤ c.area_m2))) :=
      List.mem_of_mem_take hc
    have h2 := (List.mem_insertionSort (r := areaDesc)).mp h1
    have h3 := List.mem_filter.mp h2
    simpa using h3.2
  · simpa [rank_candidates] using List.length_take_le top_k _
  · exact List.Pairwise.sublist (List.take_sublist _ _)
      (List.sorted_insertionSort areaDesc _)
  · exact (List.take_sublist _ _).subperm.trans
      (List.perm_insertionSort areaDesc _).subperm
  · intro a b hlen hsub harea
    have hpair : [a, b].Pairwise areaDesc := List.pairwise_pair.mpr harea
    have h1 : List.Sublist [a, b] (List.insertionSort areaDesc
        (candidates.filter (fun c => decide (min_area ≤ c.area_m2)))) :=
      List.sublist_insertionSort hpair hsub
    have h2 : (List.insertionSort areaDesc
        (candidates.filter (fun c => decide (min_area ≤ c.area_m2)))).length ≤ top_k := by
      rw [List.length_insertionSort]; exact hlen
    simpa [rank_candidates, List.take_of_length_le h2] using h1

/-- Witness for the amended claim C4 at a concrete two-candidate tie. -/
theorem rank_candidates_spec_witness :
    ((List.filter (fun c => decide ((25:ℚ) ≤ c.area_m2)) [c4Low, c4High]).length ≤ 10 ∧
     List.Sublist [c4Low, c4High]
       (List.filter (fun c => decide ((25:ℚ) ≤ c.area_m2)) [c4Low, c4High]) ∧
     c4High.area_m2 ≤ c4Low.area_m2) ∧
    List.Sublist [c4Low, c4High] (rank_candidates [c4Low, c4High] 25 10) :=
  have hfil : List.filter (fun c => decide ((25:ℚ) ≤ c.area_m2)) [c4Low, c4High] =
      [c4Low, c4High] := by
    norm_num [c4Low, c4High]
  have h1 : (List.filter (fun c => decide ((25:ℚ) ≤ c.area_m2)) [c4Low, c4High]).length ≤ 10 := by
    rw [hfil]; norm_num
  have h2 : List.Sublist [c4Low, c4High]
      (List.filter (fun c => decide ((25:ℚ) ≤ c.area_m2)) [c4Low, c4High]) :=
    hfil ▸ List.Sublist.refl _
  have h3 : c4High.area_m2 ≤ c4Low.area_m2 := by norm_num [c4Low, c4High]
  ⟨⟨h1, h2, h3⟩, (rank_candidates_spec [c4Low, c4High] 25 10).2.2.2.2 c4Low c4High h1 h2 h3⟩

/-- Baseline raster for the C5 failing input: a 5×5 field of zeros. -/
def c5Base : NDArray FP := ⟨[5, 5], List.replicate 25 (.fin 0)⟩

/-- Current raster for the C5 failing input: identical except for a
single centre pixel raised by 1/2. -/
def c5Curr : NDArray FP :=
  ⟨[5, 5], List.replicate 12 (.fin 0) ++ [.fin (1/2)] ++ List.replicate 12 (.fin 0)⟩

/-- Claim C5 evaluation at the failing input: with threshold 1/10 and
`min_change_area = 10`, the isolated single-pixel changed region (size
1 < 10) still appears in the returned change mask and is counted in the
statistics — `detect_change` never applies any connected-component
minimum-area filter, its `min_change_area` parameter is dead. -/
theorem detect_change_ignores_min_change_area :
    detect_change c5Base c5Curr (.fin (1/10)) 10 =
      .ok (⟨[5, 5], List.replicate 12 false ++ [true] ++ List.replicate 12 false⟩,
           ⟨1, 1, 0⟩) := by
  norm_num [detect_change, c5Base, c5Curr, FP.sub, FP.add, FP.neg, FP.ltB,
    List.replicate, List.countP, List.countP.go]

/-- The fixed asset-key preference list of `_download_sentinel2_item`
(`aquaspot/ingestion.py` line 224): composite previews first, then two
spectral keys. -/
def possible_assets : List String := ["visual", "rendered_preview", "overview", "B04", "red"]

/-- The asset-selection loop of `_download_sentinel2_item` (lines
228-232): the first key of `possible_assets` present in the item's
asset map is selected; `none` when no key matches. -/
def select_asset (assets : List String) : Option String :=
  List.find? (fun k => assets.contains k) possible_assets

/-- Counterexample to claim C6 as stated: on an item offering both the
spectral band `B04` and the composite `visual` asset, the selection
picks `visual`, not the spectral band; and an item offering only the
spectral band `B03` yields no selection at all instead of degrading to
the available asset. -/
theorem select_asset_prefers_visual_cex :
    select_asset ["B04", "visual"] = some "visual" ∧
    some "visual" ≠ some "B04" ∧
    select_asset ["B03"] = none := by
  refine ⟨by decide, by decide, by decide⟩

/-- Claim C6, amended: the asset selection tries the fixed key list
`visual, rendered_preview, overview, B04, red` in order and returns the
first key present, so composite previews are preferred over spectral
bands; whenever `visual` is present it is selected, any selected key is
one of the five listed keys present in the item, and when none of the
five keys is present no asset is selected (even if other assets
exist). -/
theorem select_asset_priority (assets : List String) :
    (∀ k, select_asset assets = some k → k ∈ possible_assets ∧ k ∈ assets) ∧
    ("visual" ∈ assets → select_asset assets = some "visual") ∧
    ((∀ k ∈ possible_assets, k ∉ assets) → select_asset assets = none) := by
  refine ⟨?_, ?_, ?_⟩
  · intro k hk
    refine ⟨List.mem_of_find?_eq_some hk, ?_⟩
    have := List.find?_some hk
    simpa using this
  · intro hv
    have hp : (fun k => assets.contains k) "visual" = true := by simpa using hv
    exact List.find?_cons_of_pos _ hp
  · intro hnone
    unfold select_asset
    rw [List.find?_eq_none]
    intro k hk
    simpa using hnone k hk

/-- Witness for the amended claim C6 at two concrete asset maps. -/
theorem select_asset_priority_witness :
    ("visual" ∈ ["TCI", "visual", "B04"] ∧
      select_asset ["TCI", "visual", "B04"] = some "visual") ∧
    ((∀ k ∈ possible_assets, k ∉ (["B03"] : List String)) ∧
      select_asset ["B03"] = none) :=
  ⟨⟨by decide, (select_asset_priority ["TCI", "visual", "B04"]).2.1 (by decide)⟩,
   ⟨by decide, (select_asset_priority ["B03"]).2.2 (by decide)⟩⟩

/-- The cloud-cover metadata of a STAC item as seen by the CDSE branch:
a numeric value, absent (`properties.get` returns the default 0), or
unreadable (accessing it raises and the `except` branch runs). -/
inductive CloudMeta where
  | present (q : ℚ)
  | missing
  | unreadable
deriving DecidableEq, Repr

/-- The acquisition timestamp of a STAC item as seen by `get_date_diff`:
a parseable timestamp (in days), or unparseable (the `except` branch
returns `float('inf')`). -/
inductive TimeMeta where
  | parseable (t : ℚ)
  | unparseable
deriving DecidableEq, Repr

/-- A STAC item of the CDSE fallback branch, reduced to the metadata the
filter and sort read; `tag` stands for the rest of the item. -/
structure CdseItem where
  cloud : CloudMeta
  time : TimeMeta
  tag : Nat
deriving DecidableEq, Repr

/-- The client-side cloud filter of `_search_sentinel2_imagery` (lines
176-184): `properties.get('eo:cloud_cover', 0) <= max_cloud_cover`,
with the `except` branch including any item whose metadata cannot be
read. -/
def cloudKeep (max_cloud_cover : ℚ) (it : CdseItem) : Bool :=
  match it.cloud with
  | .present q => decide (q ≤ max_cloud_cover)
  | .missing => decide ((0:ℚ) ≤ max_cloud_cover)
  | .unreadable => true

/-- The sort key comparison of `get_date_diff` (lines 189-207):
absolute distance to the target date, with `float('inf')` for items
whose timestamp cannot be parsed. -/
def dateKeyLeB (date : ℚ) (a b : CdseItem) : Bool :=
  match a.time, b.time with
  | .parseable ta, .parseable tb => decide (|ta - date| ≤ |tb - date|)
  | .parseable _, .unparseable => true
  | .unparseable, .unparseable => true
  | .unparseable, .parseable _ => false

/-- Propositional form of `dateKeyLeB`. -/
def dateKeyLe (date : ℚ) (a b : CdseItem) : Prop := dateKeyLeB date a b = true

instance (date : ℚ) : DecidableRel (dateKeyLe date) := fun a b =>
  inferInstanceAs (Decidable (dateKeyLeB date a b = true))

instance (date : ℚ) : IsTotal CdseItem (dateKeyLe date) := by
  constructor
  intro a b
  unfold dateKeyLe dateKeyLeB
  cases ha : a.time <;> cases hb : b.time <;> simp
  exact le_total _ _

instance (date : ℚ) : IsTrans CdseItem (dateKeyLe date) := by
  constructor
  intro a b c hab hbc
  unfold dateKeyLe dateKeyLeB at *
  cases ha : a.time <;> cases hb : b.time <;> cases hc : c.time <;>
    simp_all
  exact le_trans hab hbc

/-- The CDSE fallback branch of `_search_sentinel2_imagery` (lines
157-213): client-side cloud filtering in catalog order, then a stable
sort by `get_date_diff`.  Python's `sorted` is a stable sort;
`List.insertionSort` computes the same list. -/
def cdse_filter_sort (items : List CdseItem) (date max_cloud_cover : ℚ) : List CdseItem :=
  List.insertionSort (dateKeyLe date) (items.filter (cloudKeep max_cloud_cover))

/-- Claim C7: in the CDSE (client-side-filtered) branch, every item with
missing or unreadable cloud-cover metadata is retained; the returned
list is ordered by the date-distance key, and no unparseable-timestamp
item ever precedes a parseable one (unparseable items sort last). -/
theorem cdse_tolerant_search (items : List CdseItem) (date max_cloud_cover : ℚ)
    (hmax : 0 ≤ max_cloud_cover) :
    (∀ it ∈ items, (it.cloud = .missing ∨ it.cloud = .unreadable) →
       it ∈ cdse_filter_sort items date max_cloud_cover) ∧
    (cdse_filter_sort items date max_cloud_cover).Pairwise (dateKeyLe date) ∧
    (cdse_filter_sort items date max_cloud_cover).Pairwise
      (fun a b => b.time ≠ .unparseable → a.time ≠ .unparseable) := by
  refine ⟨?_, ?_, ?_⟩
  · intro it hit hcloud
    unfold cdse_filter_sort
    rw [List.mem_insertionSort]
    rw [List.mem_filter]
    refine ⟨hit, ?_⟩
    rcases hcloud with h | h <;> simp [cloudKeep, h, hmax]
  · exact List.sorted_insertionSort (dateKeyLe date) _
  · refine List.Pairwise.imp ?_ (List.sorted_insertionSort (dateKeyLe date) _)
    intro a b hab hb
    intro hat
    unfold dateKeyLe dateKeyLeB at hab
    rw [hat] at hab
    cases hbt : b.time
    · rw [hbt] at hab; simp at hab
    · exact hb hbt

/-- Items for the C7 witness: missing cloud metadata, unreadable
metadata with unparseable date, and ordinary items. -/
def c7Missing : CdseItem := ⟨.missing, .parseable 5, 1⟩

/-- An item whose cloud metadata is unreadable and whose timestamp does
not parse. -/
def c7Bad : CdseItem := ⟨.unreadable, .unparseable, 2⟩

/-- An ordinary low-cloud item close to the target date. -/
def c7Near : CdseItem := ⟨.present 10, .parseable 1, 3⟩

/-- Witness for claim C7 at a concrete three-item catalog answer. -/
theorem cdse_tolerant_search_witness :
    (0:ℚ) ≤ 20 ∧
    c7Missing ∈ cdse_filter_sort [c7Missing, c7Bad, c7Near] 0 20 ∧
    c7Bad ∈ cdse_filter_sort [c7Missing, c7Bad, c7Near] 0 20 :=
  have hmax : (0:ℚ) ≤ 20 := by norm_num
  have h := cdse_tolerant_search [c7Missing, c7Bad, c7Near] 0 20 hmax
  ⟨hmax,
   h.1 c7Missing (by simp) (Or.inl rfl),
   h.1 c7Bad (by simp) (Or.inr rfl)⟩

/-- Python's `f"{index:02d}"` for the narrow use here: zero-pad a
natural number to two digits. -/
def pad2 (n : Nat) : String := if n < 10 then "0" ++ toString n else toString n

/-- The target filename `sentinel2_{item_date}_{index:02d}_{asset_key}.tif`
built by `_download_sentinel2_item` (line 245); the braces of the Python
format string become string concatenation. -/
def itemFilename (item_date : String) (index : Nat) (asset_key : String) : String :=
  "sentinel2_" ++ item_date ++ "_" ++ pad2 index ++ "_" ++ asset_key ++ ".tif"

/-- Result of one `_download_sentinel2_item` call: the files existing in
the scene directory afterwards, the returned path (if any), and how
many network requests were made. -/
structure DownloadResult where
  fs : List String
  returned : Option String
  network_calls : Nat
deriving DecidableEq, Repr

/-- `_download_sentinel2_item` from `aquaspot/ingestion.py` (lines
216-268): select an asset key, build the target filename, skip the
download and return the existing path when the file already exists
(lines 248-251), otherwise perform one network request and write the
file.  The filesystem is modelled as the list of paths existing in the
scene directory; date parsing and the HTTP transfer itself are outside
the control flow this claim concerns. -/
def download_sentinel2_item (fs : List String) (assets : List String)
    (item_date : String) (index : Nat) : DownloadResult :=
  match select_asset assets with
  | none => ⟨fs, none, 0⟩
  | some asset_key =>
      let filename := itemFilename item_date index asset_key
      if fs.contains filename then ⟨fs, some filename, 0⟩
      else ⟨filename :: fs, some filename, 1⟩

/-- Claim C8: the per-item fetch is idempotent.  A second call for the
same scene/asset returns the same path, performs no network request and
leaves the filesystem unchanged; and whenever the target file already
exists the very first call already skips the download and returns the
existing file's path. -/
theorem download_sentinel2_item_idempotent (fs assets : List String)
    (item_date : String) (index : Nat) :
    (download_sentinel2_item (download_sentinel2_item fs assets item_date index).fs
        assets item_date index).returned =
      (download_sentinel2_item fs assets item_date index).returned ∧
    (download_sentinel2_item (download_sentinel2_item fs assets item_date index).fs
        assets item_date index).network_calls = 0 ∧
    (download_sentinel2_item (download_sentinel2_item fs assets item_date index).fs
        assets item_date index).fs = (download_sentinel2_item fs assets item_date index).fs ∧
    (∀ key, select_asset assets = some key →
      fs.contains (itemFilename item_date index key) = true →
      (download_sentinel2_item fs assets item_date index).network_calls = 0 ∧
      (download_sentinel2_item fs assets item_date index).returned =
        some (itemFilename item_date index key)) := by
  rcases hsel : select_asset assets with _ | key
  · simp [download_sentinel2_item, hsel]
  · by_cases hc : itemFilename item_date index key ∈ fs
    · simp [download_sentinel2_item, hsel, hc]
    · simp [download_sentinel2_item, hsel, hc]

/-- Witness for claim C8: with the target file already present, the
fetch makes no network request and returns the existing path. -/
theorem download_sentinel2_item_idempotent_witness :
    select_asset ["visual"] = some "visual" ∧
    (["sentinel2_2024_00_visual.tif"] : List String).contains
      (itemFilename "2024" 0 "visual") = true ∧
    (download_sentinel2_item ["sentinel2_2024_00_visual.tif"] ["visual"]
        "2024" 0).network_calls = 0 ∧
    (download_sentinel2_item ["sentinel2_2024_00_visual.tif"] ["visual"]
        "2024" 0).returned = some (itemFilename "2024" 0 "visual") :=
  have hsel : select_asset ["visual"] = some "visual" := by decide
  have hcont : (["sentinel2_2024_00_visual.tif"] : List String).contains
      (itemFilename "2024" 0 "visual") = true := by decide
  have h := (download_sentinel2_item_idempotent ["sentinel2_2024_00_visual.tif"] ["visual"]
      "2024" 0).2.2.2 "visual" hsel hcont
  ⟨hsel, hcont, h.1, h.2⟩

/-- A buffered polygon, reduced to the data `load_pipeline_geojson`
reads: its area; `tag` stands for the rest of the geometry. -/
structure BufPolygon where
  area : ℚ
  tag : Nat
deriving DecidableEq, Repr

/-- The union-and-buffer result handed to the selection step of
`load_pipeline_geojson`: a single polygon, or a shapely `MultiPolygon`
given by its member polygons. -/
inductive BufferedGeom where
  | poly (p : BufPolygon)
  | multi (ps : List BufPolygon)
deriving DecidableEq, Repr

/-- Python's `max(geoms, key=lambda x: x.area)`: fold keeping the
current maximum, replacing it only on strictly greater area (so the
first maximal element wins ties). -/
def maxByArea (cur : BufPolygon) : List BufPolygon → BufPolygon
  | [] => cur
  | p :: rest => maxByArea (if cur.area < p.area then p else cur) rest

/-- `load_pipeline_geojson` from `aquaspot/ingestion.py` (lines
271-309): an empty feature collection raises `ValueError`, re-wrapped by
the enclosing `except` into `ValueError("Failed to load pipeline
GeoJSON: ...")`; a `MultiPolygon` buffer result is replaced by its
largest-area member (line 303); `featureCount` is the number of features
read, and `buffered` the union-and-buffer result computed by the
geopandas/shapely library calls (outside `src`, supplied as input).
Python's `max` on an empty sequence raises, which the same `except`
re-wraps. -/
def load_pipeline_geojson (featureCount : Nat) (buffered : BufferedGeom) :
    Except String BufPolygon :=
  if featureCount = 0 then
    .error "Failed to load pipeline GeoJSON: GeoJSON file is empty"
  else
    match buffered with
    | .poly p => .ok p
    | .multi [] => .error "Failed to load pipeline GeoJSON: max() arg is an empty sequence"
    | .multi (p :: ps) => .ok (maxByArea p ps)

/-- `maxByArea` returns a member of the candidates, of maximal area. -/
theorem maxByArea_spec :
    ∀ (l : List BufPolygon) (cur : BufPolygon),
      maxByArea cur l ∈ cur :: l ∧ ∀ r ∈ cur :: l, r.area ≤ (maxByArea cur l).area := by
  intro l
  induction l with
  | nil =>
    intro cur
    refine ⟨by simp [maxByArea], ?_⟩
    intro r hr
    simp at hr
    simp [hr, maxByArea]
  | cons p rest ih =>
    intro cur
    obtain ⟨hmem, hmax⟩ := ih (if cur.area < p.area then p else cur)
    constructor
    · rcases (by simpa using hmem) with h | h
      · by_cases hlt : cur.area < p.area <;> simp [maxByArea, hlt] at h ⊢ <;> simp [h]
      · simp [maxByArea]
        right
        right
        exact h
    · intro r hr
      have hcur : cur.area ≤ (if cur.area < p.area then p else cur).area := by
        by_cases hlt : cur.area < p.area <;> simp [hlt]
        exact le_of_lt hlt
      have hp : p.area ≤ (if cur.area < p.area then p else cur).area := by
        by_cases hlt : cur.area < p.area <;> simp [hlt]
        exact le_of_not_lt hlt
      have hhead := hmax (if cur.area < p.area then p else cur) (by simp)
      rcases (by simpa using hr) with h | h | h
      · subst h
        calc r.area ≤ _ := hcur
          _ ≤ _ := by simpa [maxByArea] using hhead
      · subst h
        calc r.area ≤ _ := hp
          _ ≤ _ := by simpa [maxByArea] using hhead
      · have := hmax r (by simp [h])
        simpa [maxByArea] using this

/-- Claim C9: on a file with no features the loader fails with the
invalid-geometry `ValueError`; on a buffered multi-part geometry with
several polygons it returns a member polygon whose area is maximal
(discarding the smaller ones). -/
theorem load_pipeline_geojson_spec (n : Nat) (g : BufferedGeom) (p : BufPolygon)
    (ps : List BufPolygon) :
    (∃ e, load_pipeline_geojson 0 g = .error e) ∧
    (n ≠ 0 → load_pipeline_geojson n (.multi (p :: ps)) = .ok (maxByArea p ps) ∧
      maxByArea p ps ∈ p :: ps ∧ ∀ r ∈ p :: ps, r.area ≤ (maxByArea p ps).area) := by
  refine ⟨⟨"Failed to load pipeline GeoJSON: GeoJSON file is empty",
    by simp [load_pipeline_geojson]⟩, ?_⟩
  intro hn
  obtain ⟨hmem, hmax⟩ := maxByArea_spec ps p
  exact ⟨by simp [load_pipeline_geojson, hn], hmem, hmax⟩

/-- Three disjoint buffered polygons for the C9 witness; the middle one
has the largest area. -/
def c9Small : BufPolygon := ⟨2, 1⟩

/-- The largest-area polygon of the C9 witness. -/
def c9Big : BufPolygon := ⟨7, 2⟩

/-- Another small polygon of the C9 witness. -/
def c9Mid : BufPolygon := ⟨5, 3⟩

/-- Witness for claim C9 at a concrete three-polygon multi-geometry and
a concrete empty file. -/
theorem load_pipeline_geojson_spec_witness :
    (3 : Nat) ≠ 0 ∧
    (∃ e, load_pipeline_geojson 0 (.multi [c9Small, c9Big, c9Mid]) = .error e) ∧
    load_pipeline_geojson 3 (.multi [c9Small, c9Big, c9Mid]) = .ok c9Big :=
  have hn : (3 : Nat) ≠ 0 := by decide
  have h := load_pipeline_geojson_spec 3 (.multi [c9Small, c9Big, c9Mid]) c9Small [c9Big, c9Mid]
  have heval : maxByArea c9Small [c9Big, c9Mid] = c9Big := by
    norm_num [maxByArea, c9Small, c9Big, c9Mid]
  ⟨hn, h.1, by rw [(h.2 hn).1, heval]⟩

/-- A Sentinel-2 scene item as seen by the download loop: its asset keys
and its formatted date string. -/
structure SceneItem where
  assets : List String
  item_date : String
deriving DecidableEq, Repr

/-- Observable side effects of `download_sentinel_tiles`: directory
creation, a STAC catalog search, and a network download of an asset. -/
inductive IngestEffect where
  | mkdirEff (dir : String)
  | searchEff
  | networkEff (path : String)
deriving DecidableEq, Repr

/-- The download loop over `items[:3]` of `download_sentinel_tiles`
(lines 86-94): each item is fetched with `_download_sentinel2_item`,
collecting the returned paths and one network effect per actual
download. -/
def downloadItems (fs : List String) :
    List (Nat × SceneItem) → List String × List String × List IngestEffect
  | [] => (fs, [], [])
  | (i, it) :: rest =>
      let r := download_sentinel2_item fs it.assets it.item_date i
      let (fs2, paths, effs) := downloadItems r.fs rest
      match r.returned with
      | none => (fs2, paths, effs)
      | some p =>
          (fs2, p :: paths,
           (if r.network_calls = 0 then [] else [IngestEffect.networkEff p]) ++ effs)

/-- The retry loop of `download_sentinel_tiles` (lines 68-109): each
attempt performs one catalog search; an empty answer on the last
attempt raises, otherwise the next attempt runs; a non-empty answer
downloads up to three items and returns the collected paths when any
download succeeded.  `attempts` lists the catalog answer of each of the
`max_retries` attempts; the backoff sleeps and the exception
re-wrapping of messages are not modelled beyond this control flow. -/
def downloadAttempts (fs : List String) :
    List (List SceneItem) → Except String (List String) × List IngestEffect
  | [] => (.error "Download failed after all retry attempts", [])
  | items :: rest =>
      if items.isEmpty then
        match rest with
        | [] => (.error "No suitable Sentinel-2 imagery found", [IngestEffect.searchEff])
        | r :: rs =>
            let (res, effs) := downloadAttempts fs (r :: rs)
            (res, IngestEffect.searchEff :: effs)
      else
        let (fs2, paths, effs) := downloadItems fs (List.enum (items.take 3))
        if paths.isEmpty then
          let (res, effs2) := downloadAttempts fs2 rest
          (res, (IngestEffect.searchEff :: effs) ++ effs2)
        else
          (.ok paths, IngestEffect.searchEff :: effs)

/-- `download_sentinel_tiles` from `aquaspot/ingestion.py` (lines
25-109): reject an invalid AOI, reject target dates in the future
(lines 58-59), only then create the output directories (lines 62-64)
and run the search/download retry loop.  `now` is the clock value of
`datetime.now()`; dates are timestamps.  The returned effect list
records everything the call did to the outside world, in order. -/
def download_sentinel_tiles (aoi_is_valid : Bool) (date now : ℚ) (out_dir date_dir : String)
    (fs : List String) (attempts : List (List SceneItem)) :
    Except String (List String) × List IngestEffect :=
  if aoi_is_valid = false then
    (.error "Invalid area of interest polygon", [])
  else if now < date then
    (.error "Cannot download imagery for future dates", [])
  else
    let (res, effs) := downloadAttempts fs attempts
    (res, [IngestEffect.mkdirEff out_dir,
           IngestEffect.mkdirEff (out_dir ++ "/" ++ date_dir)] ++ effs)

/-- Claim C10: for every target date strictly later than the current
time, `download_sentinel_tiles` fails with a `ValueError` and its
effect trace is empty — no directory is created, no catalog search and
no network request happens, whatever the AOI, filesystem and catalog
would have answered. -/
theorem download_sentinel_tiles_future_date (aoi_is_valid : Bool) (date now : ℚ)
    (out_dir date_dir : String) (fs : List String) (attempts : List (List SceneItem))
    (hfuture : now < date) :
    (∃ e, (download_sentinel_tiles aoi_is_valid date now out_dir date_dir fs attempts).1 =
       .error e) ∧
    (download_sentinel_tiles aoi_is_valid date now out_dir date_dir fs attempts).2 = [] := by
  cases aoi_is_valid
  · exact ⟨⟨"Invalid area of interest polygon", by simp [download_sentinel_tiles]⟩,
      by simp [download_sentinel_tiles]⟩
  · refine ⟨⟨"Cannot download imagery for future dates", ?_⟩, ?_⟩ <;>
      simp [download_sentinel_tiles, hfuture]

/-- Witness for claim C10 at a concrete future date (target 10, clock
5) with a valid AOI and a non-empty catalog answer. -/
theorem download_sentinel_tiles_future_date_witness :
    (5 : ℚ) < 10 ∧
    (∃ e, (download_sentinel_tiles true 10 5 "data" "2024-06-15" []
        [[⟨["visual"], "2024"⟩]]).1 = .error e) ∧
    (download_sentinel_tiles true 10 5 "data" "2024-06-15" []
        [[⟨["visual"], "2024"⟩]]).2 = [] :=
  have hf : (5 : ℚ) < 10 := by norm_num
  have h := download_sentinel_tiles_future_date true 10 5 "data" "2024-06-15" []
    [[⟨["visual"], "2024"⟩]] hf
  ⟨hf, h.1, h.2⟩
